import Mathlib

/-!
# bomi: `src/bomi/player/playengine_p.hpp`

A shallow embedding of the private data record of the playback controller
(`PlayEngine::Data`), its event codes, its stream-descriptor table and the
inline member functions defined in the header, followed by the properties
established for them.

Conventions.
* A C++ pointer that may be `nullptr` is an `Option`; a member function that
  dereferences it returns `Option` and yields `none` on a null dereference.
* Mutating member functions take the record and return the updated record.
* `double` quantities are carried as exact rationals and only stored, compared
  or passed on; no floating-point arithmetic is embedded.
* Qt and backend types (`QPointF`, `Mpv`, `VideoRenderer`, `SubtitleRenderer`)
  are external; only the part of their state that the header touches is kept.
-/

namespace Bomi

/-! ## Event codes (`enum EventType`, lines 46-51) -/

/-- Enumerators of `EventType`, in declaration order. -/
inductive EventType
  | UserType
  | StateChange
  | WaitingChange
  | PreparePlayback
  | EndPlayback
  | StartPlayback
  | NotifySeek
  | SyncMrlState
  | EventTypeMax
  deriving DecidableEq, Repr

/-- Declaration order of the enumerators of `EventType`. -/
def EventType.declaration : List EventType :=
  [.UserType, .StateChange, .WaitingChange,
   .PreparePlayback, .EndPlayback, .StartPlayback, .NotifySeek,
   .SyncMrlState,
   .EventTypeMax]

/-- Numeric value of an enumerator.  The first enumerator is initialised with
`QEvent::User` (a Qt constant, passed as `user`); every later enumerator has no
initialiser and so is its predecessor plus one, i.e. `user` plus its position
in the declaration. -/
def EventType.code (user : Int) (e : EventType) : Int :=
  user + (EventType.declaration.indexOf e : Nat)

/-- The seven event kinds named by the event surface. -/
def eventKinds : List EventType :=
  [.StateChange, .WaitingChange, .PreparePlayback, .EndPlayback,
   .StartPlayback, .NotifySeek, .SyncMrlState]

/-! ## Stream descriptors (lines 53-65) -/

/-- Enumerators of `StreamType` used by the header.  The enum itself is declared
outside this file; its numeric values are taken as a parameter wherever they
matter. -/
inductive StreamType
  | StreamAudio
  | StreamVideo
  | StreamSubtitle
  | StreamUnknown
  deriving DecidableEq, Repr

/-- Values of `ExtType` used by the header. -/
inductive ExtType
  | VideoExt
  | AudioExt
  | SubtitleExt
  deriving DecidableEq, Repr

/-- The list `streamTypes` of line 53. -/
def streamTypes : List StreamType :=
  [.StreamAudio, .StreamVideo, .StreamSubtitle]

/-- Default-constructed `Autoloader`; its contents are not inspected here. -/
structure Autoloader where
  deriving DecidableEq, Repr

/-- The record `StreamData`.  `pid = none` is `nullptr`; `ext = none` is the
uninitialised `ext` left by the defaulted constructor. -/
structure StreamData where
  pid : Option String := none
  ext : Option ExtType := none
  reserved : Int := -1
  priority : List String := []
  autoloader : Autoloader := {}
  deriving DecidableEq, Repr

/-- The constructor `StreamData(const char *pid, ExtType ext)`: the two members
are set, the others keep their default member initialisers. -/
def StreamData.make (pid : String) (ext : ExtType) : StreamData :=
  { pid := some pid, ext := some ext }

/-- The initialiser of `streams` (lines 122-128): an array of `StreamUnknown`
default descriptors, then three assignments in the order video, audio,
subtitle.  `idx` gives the numeric value of each `StreamType` enumerator.  An
index outside the array is undefined behaviour in the source and yields
`none`. -/
def streamsInit (idx : StreamType → Nat) : Option (List StreamData) :=
  let strs : List StreamData := List.replicate (idx .StreamUnknown) {}
  if idx .StreamVideo < strs.length ∧ idx .StreamAudio < strs.length
      ∧ idx .StreamSubtitle < strs.length then
    let strs := strs.set (idx .StreamVideo) (StreamData.make "vid" .VideoExt)
    let strs := strs.set (idx .StreamAudio) (StreamData.make "aid" .AudioExt)
    let strs := strs.set (idx .StreamSubtitle) (StreamData.make "sid" .SubtitleExt)
    some strs
  else
    none

/-! ## Types declared outside the header -/

/-- The flag set `PlayEngine::Waitings`: a bitset of waiting reasons, bit `i` set
when reason `i` is pending. -/
abbrev Waitings := Nat

/-- Modelled from the spec: the enumerator `NoWaiting` is declared in
`playengine.hpp`, which is not part of the sources; the spec calls playback
stalled exactly when the waiting bitset is non-empty, so `NoWaiting` is the
empty bitset. -/
def NoWaiting : Waitings := 0

/-- Modelled from the spec: `PlayEngine::State` is declared in `playengine.hpp`
(not part of the sources); the spec lists the playback states as Stopped,
Loading, Playing, Paused and a terminal Error. -/
inductive State
  | Stopped
  | Loading
  | Playing
  | Paused
  | Error
  deriving DecidableEq, Repr

/-- The enum `PlayEngine::ActivationState`.  The header only names
`Unavailable`; any other enumerator is kept by its numeric code. -/
inductive ActivationState
  | Unavailable
  | other (code : Nat)
  deriving DecidableEq, Repr

/-- Modelled from the spec: `PlayEngine::Snapshot` is declared in
`playengine.hpp` (not part of the sources); the spec gives the capture targets
None (named `NoSnapshot` by the header), Screen and Video-frame. -/
inductive Snapshot
  | NoSnapshot
  | Screen
  | VideoFrame
  deriving DecidableEq, Repr

/-- One track of a stream list. -/
structure StreamTrack where
  id : Int
  codec : String
  language : String
  label : String
  external : Bool
  deriving DecidableEq, Repr

/-- The type `StreamList`. -/
abbrev StreamList := List StreamTrack

/-- A subtitle component handed to the subtitle renderer. -/
structure SubComp where
  id : Nat
  name : String
  deriving DecidableEq, Repr

/-- The part of the session configuration `MrlState` read or written by the
header: `audio_volume()`, `audio_amplifier()`, the inclusive subtitle track
list and `d->disc`. -/
structure MrlState where
  audio_volume : ℚ
  audio_amplifier : ℚ
  sub_tracks_inclusive : StreamList
  disc : Bool
  deriving DecidableEq, Repr

/-- The setter `MrlState::set_sub_tracks_inclusive`. -/
def MrlState.set_sub_tracks_inclusive (s : MrlState) (tracks : StreamList) : MrlState :=
  { s with sub_tracks_inclusive := tracks }

/-- The Qt type `QPoint`; a default-constructed point is the origin. -/
structure QPoint where
  x : Int := 0
  y : Int := 0
  deriving DecidableEq, Repr

/-- The Qt type `QPointF`. -/
structure QPointF where
  xp : ℚ
  yp : ℚ
  deriving DecidableEq, Repr

/-- An argument of a backend command. -/
inductive MpvArg
  | int (i : Int)
  | bytes (s : String)
  deriving DecidableEq, Repr

/-- A command issued to the backend. -/
structure MpvCommand where
  name : String
  args : List MpvArg
  deriving DecidableEq, Repr

/-- The backend wrapper `Mpv`: its handle (`none` is a null handle) and the
asynchronous commands issued so far, oldest first. -/
structure Mpv where
  handle : Option Nat := none
  async : List MpvCommand := []
  deriving DecidableEq, Repr

/-- Modelled from the spec: `Mpv::tellAsync` is declared in `mpv.hpp` (not part
of the sources); the backend collaborator accepts `sendCommand(name, args...)`,
here recorded as one more issued command. -/
def Mpv.tellAsync (m : Mpv) (name : String) (args : List MpvArg) : Mpv :=
  { m with async := m.async ++ [⟨name, args⟩] }

/-- The video renderer, reduced to its coordinate mapping `mapToVideo`. -/
structure VideoRenderer where
  mapToVideo : QPointF → QPointF

/-- The subtitle renderer, reduced to the components it currently holds. -/
structure SubtitleRenderer where
  components : List SubComp := []
  deriving DecidableEq, Repr

/-- Modelled from the spec: `SubtitleRenderer::setComponents` is declared in
`subtitlerenderer.hpp` (not part of the sources); the presentation collaborator
receives a subtitle component list, which becomes the list it holds. -/
def SubtitleRenderer.setComponents (r : SubtitleRenderer) (loaded : List SubComp) :
    SubtitleRenderer :=
  { r with components := loaded }

/-- Modelled from the spec: the helper `_Change(a, b)` is declared outside the
sources; it stores `b` into `a` when the two differ and reports whether it did
(the spec: a change to the value already held is a no-op).  Returns the new
content of `a` and the reported flag. -/
def _Change {α : Type} [DecidableEq α] (the one : α) : α × Bool :=
  if the ≠ one then (one, true) else (the, false)

/-! ## The record `PlayEngine::Data` (lines 67-137) -/

/-- The anonymous member `t` (lines 102-106). -/
structure ThreadLocal where
  caching : Bool := false
  start : Int := -1
  local_ : Option MrlState := none
  deriving DecidableEq, Repr

/-- The anonymous member `cache` (line 114). -/
structure CacheInfo where
  size : Int := 0
  used : Int := 0
  deriving DecidableEq, Repr

/-- The object `SpeedMeasure<quint64>`, reduced to its two constructor arguments. -/
structure SpeedMeasure where
  arg1 : Nat
  arg2 : Nat
  deriving DecidableEq, Repr

/-- The anonymous member `frames` (lines 131-134). -/
structure Frames where
  drawn : Nat := 0
  dropped : Nat := 0
  delayed : Nat := 0
  measure : SpeedMeasure := ⟨5, 20⟩
  deriving DecidableEq, Repr

/-- The members of `PlayEngine::Data` with their default member initialisers.
Members of external types without an initialiser (`mrl`, `metaData`,
`mediaName`, `hwcdc`, `assEncodings`, `ss`, `mutex`, the `info` objects) and the
null collaborator pointers `ac`, `vp`, `history`, `yle`, `youtube` are not
touched by the functions embedded below and are left out; `infoDelayed` is
`info.delayed`.  `params` has no initialiser in the header and `streams`
depends on the numbering of `StreamType`, so neither has a default here. -/
structure Data where
  mpv : Mpv := {}
  vr : Option VideoRenderer := none
  sr : Option SubtitleRenderer := none
  waitings : Waitings := NoWaiting
  state : State := .Stopped
  hwacc : ActivationState := .Unavailable
  snapshot : Snapshot := .NoSnapshot
  params : MrlState
  infoDelayed : Int := 0
  t : ThreadLocal := {}
  hasImage : Bool := false
  seekable : Bool := false
  hasVideo : Bool := false
  pauseAfterSkip : Bool := false
  resume : Bool := false
  hwdec : Bool := false
  quit : Bool := false
  preciseSeeking : Bool := false
  cache : CacheInfo := {}
  avSync : Int := 0
  reload : Int := -1
  time_s : Int := 0
  begin_s : Int := 0
  end_s : Int := 0
  duration_s : Int := 0
  duration : Int := 0
  begin_ : Int := 0
  time : Int := 0
  streams : Option (List StreamData)
  frames : Frames := {}
  mouse : QPoint := {}

/-- A freshly constructed record: every member holds its default member
initialiser.  `params` is the default-constructed configuration and `idx` the
numbering of `StreamType`, both declared outside the header. -/
def Data.init (params : MrlState) (idx : StreamType → Nat) : Data :=
  { params := params, streams := streamsInit idx }

/-! ## Posting events (lines 164-165) -/

/-- A payload value carried by a posted event. -/
inductive EventArg
  | state (s : State)
  | waitings (w : Waitings)
  | bool (b : Bool)
  deriving DecidableEq, Repr

/-- A posted `DataEvent`: its type code and its payload values in order. -/
structure DataEvent where
  type : EventType
  args : List EventArg
  deriving DecidableEq, Repr

/-- The engine object `p` together with its private data: `d` is the record
`PlayEngine::Data`, `posted` the events posted to the engine and not yet
processed, oldest first. -/
structure PlayEngine where
  d : Data
  posted : List DataEvent := []

/-- Modelled from the spec: `_PostEvent(obj, type, args...)` is declared in
`misc/dataevent.hpp` (not part of the sources); an event is constructed and
posted to the queue of the controlling thread, which processes events in
posting order. -/
def _PostEvent (queue : List DataEvent) (type : EventType) (args : List EventArg) :
    List DataEvent :=
  queue ++ [⟨type, args⟩]

/-- The overload `post(State state)`. -/
def post (p : PlayEngine) (state : State) : PlayEngine :=
  { p with posted := _PostEvent p.posted .StateChange [.state state] }

/-- The overload `post(Waitings w, bool set)`. -/
def postWaitings (p : PlayEngine) (w : Waitings) (set : Bool) : PlayEngine :=
  { p with posted := _PostEvent p.posted .WaitingChange [.waitings w, .bool set] }

/-! ## Inline member functions (lines 143-148, 178-186) -/

section Renderers

variable (toTrackList : SubtitleRenderer → StreamList)
variable (toPoint : QPointF → QPoint)

/-- The overload `setInclusiveSubtitles(MrlState *s, loaded)`.  Returns the
updated record and the updated `*s`; `none` when `sr` is null.  `toTrackList`
is the track list reported by the subtitle renderer. -/
def setInclusiveSubtitles (d : Data) (s : MrlState) (loaded : List SubComp) :
    Option (Data × MrlState) :=
  match d.sr with
  | none => none
  | some sr =>
    let sr := sr.setComponents loaded
    some ({ d with sr := some sr }, s.set_sub_tracks_inclusive (toTrackList sr))

/-- The overload `setInclusiveSubtitles(loaded)`: the two-argument overload
applied to `&params`. -/
def setInclusiveSubtitlesParams (d : Data) (loaded : List SubComp) : Option Data :=
  match setInclusiveSubtitles toTrackList d d.params loaded with
  | none => none
  | some (d, s) => some { d with params := s }

/-- The function `syncInclusiveSubtitles()`; `none` when `sr` is null. -/
def syncInclusiveSubtitles (d : Data) : Option Data :=
  match d.sr with
  | none => none
  | some sr => some { d with params := d.params.set_sub_tracks_inclusive (toTrackList sr) }

/-- The function `setMousePos(const QPointF &pos)`.  Returns the result and the
updated record; `none` when `vr` is dereferenced while null.  `toPoint` is
`QPointF::toPoint`. -/
def setMousePos (d : Data) (pos : QPointF) : Option (Bool × Data) :=
  if d.mpv.handle.isNone || !d.params.disc then
    some (false, d)
  else
    match d.vr with
    | none => none
    | some vr =>
      let (mouse, changed) := _Change d.mouse (toPoint (vr.mapToVideo pos))
      let d := { d with mouse := mouse }
      if !changed then
        some (false, d)
      else
        some (true, { d with mpv := d.mpv.tellAsync "mouse" [.int d.mouse.x, .int d.mouse.y] })

end Renderers

/-! ## Member functions declared in the header and defined elsewhere -/

/-- Modelled from the spec: `updateState` is only declared in the header (line
140).  The spec: `StateChange(newState)` applies the state transition and is a
no-op if the controller is already in the target state. -/
def updateState (d : Data) (s : State) : Data :=
  let (state, changed) := _Change d.state s
  if changed then { d with state := state } else d

/-- The bits of `w` that are not bits of `flags` (`w & ~flags`). -/
def clearBits (w flags : Waitings) : Waitings :=
  w ^^^ (w &&& flags)

/-- Modelled from the spec: `setWaitings` is only declared in the header (line
141).  The spec: `WaitingChange(flag, set)` sets or clears a waiting-reason bit
of the waiting bitset. -/
def setWaitings (d : Data) (w : Waitings) (set : Bool) : Data :=
  if set then { d with waitings := d.waitings ||| w }
  else { d with waitings := clearBits d.waitings w }

/-- Replaying a sequence of `WaitingChange(flag, set)` events in order. -/
def replayWaitings (d : Data) (events : List (Waitings × Bool)) : Data :=
  events.foldl (fun d e => setWaitings d e.1 e.2) d

/-- The bits that a pair `(flag, set)` changes in the bitset `acc`: the bits of
`flag` whose value in `acc` is not the requested value `set`. -/
def toggled (acc flag : Waitings) (set : Bool) : Waitings :=
  if set then flag ^^^ (flag &&& acc) else flag &&& acc

/-- The XOR-accumulation of a sequence of `(flag, set)` pairs, following the
wording of the property: each pair in turn is XOR-ed into the accumulator
through the bits of its flag that do not yet have the value `set`. -/
def xorAccumulate (w : Waitings) (events : List (Waitings × Bool)) : Waitings :=
  events.foldl (fun acc e => acc ^^^ toggled acc e.1 e.2) w

/-- Modelled from the spec: `mutate(fn)` has no counterpart in the header.  The
spec: it applies a change to the session configuration and marks the local copy
stale (the `caching` flag of `t`). -/
def mutate (d : Data) (fn : MrlState → MrlState) : Data :=
  { d with params := fn d.params, t := { d.t with caching := true } }

/-- What one call of `localCopy()` does: the returned pointer (`none` is null),
whether the call cloned the configuration, and the record afterwards. -/
structure LocalCopy where
  result : Option MrlState
  cloned : Bool
  d : Data

/-- Modelled from the spec: `localCopy` is only declared in the header (line
188).  The spec (`snapshot()`): if the local copy is stale, the session
configuration is cloned into it, staleness is cleared and the clone is
returned; if it is not stale, the existing clone is returned. -/
def localCopy (d : Data) : LocalCopy :=
  if d.t.caching then
    let clone := d.params
    { result := some clone, cloned := true,
      d := { d with t := { d.t with local_ := some clone, caching := false } } }
  else
    { result := d.t.local_, cloned := false, d := d }

/-- The outcomes of `n` successive calls of `localCopy()`, first call first. -/
def localCopies : Nat → Data → List LocalCopy
  | 0, _ => []
  | n + 1, d => localCopy d :: localCopies n (localCopy d).d

/-! ## Sample inputs -/

/-- A numbering of the `StreamType` enumerators, used for concrete instances. -/
def sampleIdx : StreamType → Nat
  | .StreamVideo => 0
  | .StreamAudio => 1
  | .StreamSubtitle => 2
  | .StreamUnknown => 3

/-- A configuration with volume 50 and amplifier 100, playing a disc. -/
def sampleParams : MrlState :=
  { audio_volume := 50, audio_amplifier := 100, sub_tracks_inclusive := [], disc := true }

/-- A rounding of points to the integer grid, half-way values going up. -/
def sampleToPoint (p : QPointF) : QPoint :=
  { x := (2 * p.xp.num + p.xp.den) / (2 * p.xp.den),
    y := (2 * p.yp.num + p.yp.den) / (2 * p.yp.den) }

/-- A renderer-reported track list: one external track per component. -/
def sampleToTrackList (r : SubtitleRenderer) : StreamList :=
  r.components.map fun c =>
    { id := c.id, codec := "", language := "", label := c.name, external := true }

/-- A freshly constructed record over `sampleParams` and `sampleIdx`. -/
def sampleData : Data :=
  Data.init sampleParams sampleIdx

/-- A record with a backend handle and a video renderer that maps every
position to itself, playing the disc of `sampleParams`. -/
def sampleDisc : Data :=
  { sampleData with mpv := { handle := some 1 }, vr := some ⟨fun p => p⟩ }

/-! ## Properties -/

/-- Position of every enumerator of `EventType` in the declaration. -/
theorem EventType.indexOf_declaration (e : EventType) :
    EventType.declaration.indexOf e =
      match e with
      | .UserType => 0 | .StateChange => 1 | .WaitingChange => 2
      | .PreparePlayback => 3 | .EndPlayback => 4 | .StartPlayback => 5
      | .NotifySeek => 6 | .SyncMrlState => 7 | .EventTypeMax => 8 := by
  cases e <;> rfl

/-- C5: the event surface is exactly the seven kinds StateChange, WaitingChange,
PreparePlayback, EndPlayback, StartPlayback, NotifySeek, SyncMrlState.  For every
value `user` of the base user-event code: their codes are `user + 1` to
`user + 7` in declaration order and pairwise distinct, each lies strictly
between the code of `UserType` (which is `user`) and the code of `EventTypeMax`,
`EventTypeMax` is `UserType + 8`, an enumerator has its code in the open range
exactly when it is one of the seven, and every integer in the open range is the
code of one of the seven. -/
theorem eventType_surface (user : Int) :
    eventKinds.map (EventType.code user)
        = [user + 1, user + 2, user + 3, user + 4, user + 5, user + 6, user + 7]
      ∧ (eventKinds.map (EventType.code user)).Nodup
      ∧ EventType.code user .UserType = user
      ∧ EventType.code user .EventTypeMax = EventType.code user .UserType + 8
      ∧ (∀ e ∈ eventKinds, EventType.code user .UserType < EventType.code user e
            ∧ EventType.code user e < EventType.code user .EventTypeMax)
      ∧ (∀ e : EventType, EventType.code user .UserType < EventType.code user e
            ∧ EventType.code user e < EventType.code user .EventTypeMax ↔ e ∈ eventKinds)
      ∧ (∀ c : Int, EventType.code user .UserType < c →
            c < EventType.code user .EventTypeMax →
            ∃ e ∈ eventKinds, EventType.code user e = c) := by
  have hcode : ∀ e, EventType.code user e
      = user + ((EventType.declaration.indexOf e : Nat) : Int) := fun _ => rfl
  have hlist : eventKinds.map (EventType.code user)
      = [user + 1, user + 2, user + 3, user + 4, user + 5, user + 6, user + 7] := by
    simp [eventKinds, hcode, EventType.indexOf_declaration]
  refine ⟨hlist, ?_, ?_, ?_, ?_, ?_, ?_⟩
  · rw [hlist]
    simp
  · simp [hcode, EventType.indexOf_declaration]
  · simp [hcode, EventType.indexOf_declaration]
  · intro e he
    simp only [eventKinds, List.mem_cons, List.mem_singleton, List.not_mem_nil,
      or_false] at he
    rcases he with h | h | h | h | h | h | h <;> subst h <;>
      simp [hcode, EventType.indexOf_declaration]
  · intro e
    cases e <;> simp [hcode, EventType.indexOf_declaration, eventKinds]
  · intro c h1 h2
    simp only [hcode, EventType.indexOf_declaration] at h1 h2
    have hc : c = user + 1 ∨ c = user + 2 ∨ c = user + 3 ∨ c = user + 4
        ∨ c = user + 5 ∨ c = user + 6 ∨ c = user + 7 := by
      simp at h1 h2
      omega
    have hmem : ∀ x ∈ eventKinds.map (EventType.code user),
        ∃ e ∈ eventKinds, EventType.code user e = x := by
      intro x hx
      obtain ⟨e, he, rfl⟩ := List.mem_map.mp hx
      exact ⟨e, he, rfl⟩
    apply hmem
    rw [hlist]
    simp only [List.mem_cons, List.mem_singleton, List.not_mem_nil, or_false]
    exact hc

/-- C10: a freshly constructed controller data record has playback state
Stopped, an empty waiting bitset (NoWaiting, no bit set), snapshot target
NoSnapshot, hardware acceleration Unavailable, frame counters drawn, dropped and
delayed equal to 0, a local copy that is not marked caching, has start -1 and
holds no clone, reload -1, and the flags hasImage, seekable, hasVideo,
pauseAfterSkip, resume, hwdec, quit and preciseSeeking all false. -/
theorem init_defaults (params : MrlState) (idx : StreamType → Nat) :
    (Data.init params idx).state = .Stopped
      ∧ (Data.init params idx).waitings = NoWaiting
      ∧ (∀ i : Nat, (Data.init params idx).waitings.testBit i = false)
      ∧ (Data.init params idx).snapshot = .NoSnapshot
      ∧ (Data.init params idx).hwacc = .Unavailable
      ∧ (Data.init params idx).frames.drawn = 0
      ∧ (Data.init params idx).frames.dropped = 0
      ∧ (Data.init params idx).frames.delayed = 0
      ∧ (Data.init params idx).t.caching = false
      ∧ (Data.init params idx).t.start = -1
      ∧ (Data.init params idx).t.local_ = none
      ∧ (Data.init params idx).reload = -1
      ∧ (Data.init params idx).hasImage = false
      ∧ (Data.init params idx).seekable = false
      ∧ (Data.init params idx).hasVideo = false
      ∧ (Data.init params idx).pauseAfterSkip = false
      ∧ (Data.init params idx).resume = false
      ∧ (Data.init params idx).hwdec = false
      ∧ (Data.init params idx).quit = false
      ∧ (Data.init params idx).preciseSeeking = false := by
  refine ⟨rfl, rfl, ?_, rfl, rfl, rfl, rfl, rfl, rfl, rfl, rfl, rfl, rfl, rfl, rfl, rfl,
    rfl, rfl, rfl, rfl⟩
  intro i
  show (0 : Nat).testBit i = false
  exact Nat.zero_testBit i

/-- C4: posting never mutates controller state directly.  `post(state)` appends
exactly one event to the queue, of kind StateChange with payload `state`;
`post(w, set)` appends exactly one event, of kind WaitingChange with payload
`(w, set)`; in both cases the whole data record, in particular its fields
`state` and `waitings`, is unchanged. -/
theorem post_frame (p : PlayEngine) (state : State) (w : Waitings) (set : Bool) :
    (post p state).posted = p.posted ++ [⟨.StateChange, [.state state]⟩]
      ∧ (post p state).posted.length = p.posted.length + 1
      ∧ (post p state).d = p.d
      ∧ (post p state).d.state = p.d.state
      ∧ (post p state).d.waitings = p.d.waitings
      ∧ (postWaitings p w set).posted
          = p.posted ++ [⟨.WaitingChange, [.waitings w, .bool set]⟩]
      ∧ (postWaitings p w set).posted.length = p.posted.length + 1
      ∧ (postWaitings p w set).d = p.d
      ∧ (postWaitings p w set).d.state = p.d.state
      ∧ (postWaitings p w set).d.waitings = p.d.waitings := by
  refine ⟨rfl, ?_, rfl, rfl, rfl, rfl, ?_, rfl, rfl, rfl⟩ <;>
    simp [post, postWaitings, _PostEvent]

/-- One `WaitingChange` event acts on every bit position separately: a bit of
the flag takes the requested value, every other bit is kept. -/
theorem setWaitings_testBit (d : Data) (w : Waitings) (set : Bool) (i : Nat) :
    (setWaitings d w set).waitings.testBit i
      = if w.testBit i then set else d.waitings.testBit i := by
  cases set
  · simp only [setWaitings, clearBits, Bool.false_eq_true, if_false, Nat.testBit_xor,
      Nat.testBit_and]
    cases d.waitings.testBit i <;> cases w.testBit i <;> rfl
  · simp only [setWaitings, if_true, Nat.testBit_or]
    cases d.waitings.testBit i <;> cases w.testBit i <;> rfl

/-- One `WaitingChange` event XOR-s the bits it changes into the bitset. -/
theorem setWaitings_eq_xor (d : Data) (w : Waitings) (set : Bool) :
    (setWaitings d w set).waitings = d.waitings ^^^ toggled d.waitings w set := by
  apply Nat.eq_of_testBit_eq
  intro i
  rw [setWaitings_testBit]
  cases set
  · simp only [toggled, Bool.false_eq_true, if_false, Nat.testBit_xor, Nat.testBit_and]
    cases d.waitings.testBit i <;> cases w.testBit i <;> rfl
  · simp only [toggled, if_true, Nat.testBit_xor, Nat.testBit_and]
    cases d.waitings.testBit i <;> cases w.testBit i <;> rfl

/-- The bits changed by a pair are the bits of its flag whose current value
differs from the requested one. -/
theorem toggled_testBit (acc flag : Waitings) (set : Bool) (i : Nat) :
    (toggled acc flag set).testBit i = (flag.testBit i && (acc.testBit i != set)) := by
  cases set
  · simp only [toggled, Bool.false_eq_true, if_false, Nat.testBit_and]
    cases acc.testBit i <;> cases flag.testBit i <;> rfl
  · simp only [toggled, if_true, Nat.testBit_xor, Nat.testBit_and]
    cases acc.testBit i <;> cases flag.testBit i <;> rfl

/-- C1: for every initial waiting bitset and every finite sequence of
WaitingChange(flag, set) events applied in order through `setWaitings`, the
resulting bitset equals the XOR-accumulation of the (flag, set) pairs applied in
that order; bit by bit, it has the value requested by the last event whose flag
contains the bit, and the initial value if there is none.  In particular,
applying WaitingChange(f, false) when no bit of `f` is set leaves the record,
and so the bitset, unchanged.  A pair that sets bits which are all clear, or
clears bits which are all set, is the plain XOR with its flag. -/
theorem replayWaitings_eq_xorAccumulate (d : Data) (events : List (Waitings × Bool)) :
    (replayWaitings d events).waitings = xorAccumulate d.waitings events
      ∧ (∀ i : Nat, (replayWaitings d events).waitings.testBit i
          = match events.reverse.find? (fun e => e.1.testBit i) with
            | some e => e.2
            | none => d.waitings.testBit i)
      ∧ (∀ f : Waitings, d.waitings &&& f = 0 → setWaitings d f false = d)
      ∧ (∀ f : Waitings, d.waitings &&& f = 0 →
          (replayWaitings d [(f, false)]).waitings = d.waitings
            ∧ xorAccumulate d.waitings [(f, false)] = d.waitings)
      ∧ (∀ (f : Waitings) (set : Bool),
          (if set then f &&& d.waitings = 0 else f &&& d.waitings = f) →
          (setWaitings d f set).waitings = d.waitings ^^^ f) := by
  have hclear : ∀ f : Waitings, d.waitings &&& f = 0 → setWaitings d f false = d := by
    intro f hf
    have hw : clearBits d.waitings f = d.waitings := by
      simp [clearBits, hf]
    simp only [setWaitings, Bool.false_eq_true, if_false, hw]
  refine ⟨?_, ?_, hclear, ?_, ?_⟩
  · clear hclear
    induction events generalizing d with
    | nil => rfl
    | cons e es ih =>
      have h := ih (setWaitings d e.1 e.2)
      rw [setWaitings_eq_xor] at h
      exact h
  · intro i
    induction events using List.reverseRecOn with
    | nil => rfl
    | append_singleton es e ih =>
      have hstep : replayWaitings d (es ++ [e]) = setWaitings (replayWaitings d es) e.1 e.2 := by
        simp [replayWaitings, List.foldl_append]
      rw [hstep, setWaitings_testBit, List.reverse_append, List.reverse_singleton,
        List.singleton_append, List.find?_cons]
      by_cases hbit : e.1.testBit i = true
      · simp [hbit]
      · simp only [hbit, Bool.false_eq_true, if_false]
        exact ih
  · intro f hf
    have h1 : (replayWaitings d [(f, false)]).waitings = d.waitings := by
      show (setWaitings d f false).waitings = d.waitings
      rw [hclear f hf]
    have h2 : xorAccumulate d.waitings [(f, false)] = d.waitings := by
      show d.waitings ^^^ toggled d.waitings f false = d.waitings
      rw [← setWaitings_eq_xor, hclear f hf]
    exact ⟨h1, h2⟩
  · intro f set hf
    rw [setWaitings_eq_xor]
    cases set
    · simp only [Bool.false_eq_true, if_false] at hf
      simp [toggled, hf]
    · simp only [if_true] at hf
      simp [toggled, hf]

/-- Witness for C1: on a fresh record whose bitset is 5, the events set 2, set 2
again, clear 4, clear 8; clearing the unset flag 2 changes nothing; setting the
clear flag 2 is the plain XOR. -/
theorem replayWaitings_eq_xorAccumulate_witness :
    (replayWaitings { sampleData with waitings := 5 }
        [(2, true), (2, true), (4, false), (8, false)]).waitings = 3
      ∧ xorAccumulate 5 [(2, true), (2, true), (4, false), (8, false)] = 3
      ∧ setWaitings { sampleData with waitings := 5 } 2 false
          = { sampleData with waitings := 5 }
      ∧ xorAccumulate 5 [(2, false)] = 5
      ∧ (setWaitings { sampleData with waitings := 5 } 2 true).waitings = 5 ^^^ 2 :=
  ⟨by decide, by decide,
   (replayWaitings_eq_xorAccumulate { sampleData with waitings := 5 } []).2.2.1 2
     (by decide),
   ((replayWaitings_eq_xorAccumulate { sampleData with waitings := 5 } []).2.2.2.1 2
     (by decide)).2,
   (replayWaitings_eq_xorAccumulate { sampleData with waitings := 5 } []).2.2.2.2 2 true
     (by decide)⟩

/-- C2: state-change idempotence.  For every controller state whose playback
state is already `s` (in particular `s` = Playing), processing StateChange(s)
through `updateState` leaves the record unchanged, hence both the playback state
and the waiting flags. -/
theorem updateState_idempotent (d : Data) (s : State) (h : d.state = s) :
    updateState d s = d
      ∧ (updateState d s).state = d.state
      ∧ (updateState d s).waitings = d.waitings := by
  have hd : updateState d s = d := by
    simp [updateState, _Change, h]
  rw [hd]
  exact ⟨rfl, rfl, rfl⟩

/-- Witness for C2: StateChange(Playing) on a record that is Playing with
waiting bitset 6. -/
theorem updateState_idempotent_witness :
    ({ sampleData with state := .Playing, waitings := 6 } : Data).state = .Playing
      ∧ (updateState { sampleData with state := .Playing, waitings := 6 } .Playing).state
          = .Playing
      ∧ (updateState { sampleData with state := .Playing, waitings := 6 } .Playing).waitings
          = 6 :=
  ⟨rfl,
   (updateState_idempotent { sampleData with state := .Playing, waitings := 6 } .Playing
      rfl).2.1,
   (updateState_idempotent { sampleData with state := .Playing, waitings := 6 } .Playing
      rfl).2.2⟩

/-- Mutations compose on the configuration. -/
theorem mutate_foldl_params (fns : List (MrlState → MrlState)) (d : Data) :
    (fns.foldl mutate d).params = fns.foldl (fun p fn => fn p) d.params := by
  induction fns generalizing d with
  | nil => rfl
  | cons fn fns ih => exact ih (mutate d fn)

/-- Mutations keep a stale local copy stale. -/
theorem mutate_foldl_caching (fns : List (MrlState → MrlState)) (d : Data)
    (h : d.t.caching = true) : (fns.foldl mutate d).t.caching = true := by
  induction fns generalizing d with
  | nil => exact h
  | cons fn fns ih => exact ih (mutate d fn) rfl

/-- After at least one mutation the local copy is stale. -/
theorem mutate_foldl_stale (fns : List (MrlState → MrlState)) (d : Data)
    (h : fns ≠ []) : (fns.foldl mutate d).t.caching = true := by
  cases fns with
  | nil => exact absurd rfl h
  | cons fn fns => exact mutate_foldl_caching fns (mutate d fn) rfl

/-- Calls of `localCopy()` on a fresh local copy return the clone it holds and
never clone. -/
theorem localCopies_fresh (n : Nat) (d : Data) (h : d.t.caching = false) :
    ∀ r ∈ localCopies n d, r.result = d.t.local_ ∧ r.cloned = false ∧ r.d = d := by
  have hstep : localCopy d = ⟨d.t.local_, false, d⟩ := by
    simp [localCopy, h]
  induction n with
  | zero => intro r hr; simp [localCopies] at hr
  | succ n ih =>
    intro r hr
    simp only [localCopies, List.mem_cons] at hr
    rcases hr with hr | hr
    · rw [hr, hstep]
      exact ⟨rfl, rfl, rfl⟩
    · rw [hstep] at hr
      exact ih r hr

/-- The number of calls recorded by `localCopies`. -/
theorem localCopies_length (n : Nat) (d : Data) : (localCopies n d).length = n := by
  induction n generalizing d with
  | zero => rfl
  | succ n ih => simp [localCopies, ih]

/-- C3: local copy staleness.  After one or more mutations of the session
configuration, `n >= 1` calls of `localCopy()` with no mutation in between all
return the same clone, equal to the configuration with every mutation applied
in order; the first call is the one that clones and no later call clones, so
exactly one clone is produced across the `n` calls. -/
theorem localCopy_after_mutations (d : Data) (fns : List (MrlState → MrlState)) (n : Nat)
    (hf : fns ≠ []) (hn : 1 ≤ n) :
    (localCopies n (fns.foldl mutate d)).length = n
      ∧ (localCopies n (fns.foldl mutate d)).head?.map (fun r => r.result)
          = some (some (fns.foldl (fun p fn => fn p) d.params))
      ∧ (localCopies n (fns.foldl mutate d)).head?.map (fun r => r.cloned) = some true
      ∧ (∀ r ∈ (localCopies n (fns.foldl mutate d)).tail, r.cloned = false)
      ∧ ((localCopies n (fns.foldl mutate d)).filter (fun r => r.cloned)).length = 1
      ∧ (∀ r ∈ localCopies n (fns.foldl mutate d),
          r.result = some (fns.foldl (fun p fn => fn p) d.params)) := by
  obtain ⟨m, rfl⟩ : ∃ m, n = m + 1 := ⟨n - 1, by omega⟩
  have hstale := mutate_foldl_stale fns d hf
  have hparams := mutate_foldl_params fns d
  generalize fns.foldl mutate d = d1 at hstale hparams
  generalize fns.foldl (fun p fn => fn p) d.params = target at hparams
  have hfirst : localCopy d1 = ⟨some target, true,
      { d1 with t := { d1.t with local_ := some target, caching := false } }⟩ := by
    simp [localCopy, hstale, hparams]
  have hrest := localCopies_fresh m
    { d1 with t := { d1.t with local_ := some target, caching := false } } rfl
  have hunfold : localCopies (m + 1) d1 = localCopy d1 :: localCopies m (localCopy d1).d := rfl
  rw [hunfold, hfirst]
  refine ⟨?_, rfl, rfl, ?_, ?_, ?_⟩
  · simp [localCopies_length]
  · intro r hr
    exact (hrest r hr).2.1
  · have hnone : (localCopies m
        { d1 with t := { d1.t with local_ := some target, caching := false } }).filter
        (fun r => r.cloned) = [] := by
      rw [List.filter_eq_nil_iff]
      intro r hr
      simp [(hrest r hr).2.1]
    simp [List.filter_cons, hnone]
  · intro r hr
    simp only [List.mem_cons] at hr
    rcases hr with hr | hr
    · rw [hr]
    · exact (hrest r hr).1

/-- Witness for C3: two mutations (volume set to 80, then amplifier set to the
volume) followed by three calls of `localCopy()`. -/
theorem localCopy_after_mutations_witness :
    ((localCopies 3 ([fun p => { p with audio_volume := 80 },
          fun p => { p with audio_amplifier := p.audio_volume }].foldl mutate
          sampleData)).map (fun r => r.result)
        = [some { sampleParams with audio_volume := 80, audio_amplifier := 80 },
           some { sampleParams with audio_volume := 80, audio_amplifier := 80 },
           some { sampleParams with audio_volume := 80, audio_amplifier := 80 }])
      ∧ ((localCopies 3 ([fun p => { p with audio_volume := 80 },
          fun p => { p with audio_amplifier := p.audio_volume }].foldl mutate
          sampleData)).filter (fun r => r.cloned)).length = 1 :=
  ⟨by decide,
   (localCopy_after_mutations sampleData
      [fun p => { p with audio_volume := 80 },
       fun p => { p with audio_amplifier := p.audio_volume }] 3
      (by simp) (by decide)).2.2.2.2.1⟩

/-- C6: stream descriptor table.  The list `streamTypes` contains each of audio,
video and subtitle exactly once and nothing else.  Whenever the numbering of
`StreamType` puts the three enumerators at pairwise distinct positions below
`StreamUnknown`, the table `streams` is built, has `StreamUnknown` entries, and
holds for video the key "vid" with class VideoExt, for audio the key "aid" with
class AudioExt and for subtitle the key "sid" with class SubtitleExt, each with
reserved = -1 and an empty priority list; so every stream type of the list has
a non-null property key and its matching extension class, distinct stream types
of the list have distinct keys, and every descriptor of the table has
reserved = -1 and an empty priority list. -/
theorem streams_table (idx : StreamType → Nat)
    (hv : idx .StreamVideo < idx .StreamUnknown)
    (ha : idx .StreamAudio < idx .StreamUnknown)
    (hs : idx .StreamSubtitle < idx .StreamUnknown)
    (hva : idx .StreamVideo ≠ idx .StreamAudio)
    (hvs : idx .StreamVideo ≠ idx .StreamSubtitle)
    (has : idx .StreamAudio ≠ idx .StreamSubtitle) :
    streamTypes.count .StreamAudio = 1 ∧ streamTypes.count .StreamVideo = 1
      ∧ streamTypes.count .StreamSubtitle = 1 ∧ streamTypes.length = 3
      ∧ StreamType.StreamUnknown ∉ streamTypes
      ∧ ∃ strs, streamsInit idx = some strs
        ∧ strs.length = idx .StreamUnknown
        ∧ strs[idx .StreamVideo]?
            = some { pid := some "vid", ext := some .VideoExt, reserved := -1,
                     priority := [], autoloader := {} }
        ∧ strs[idx .StreamAudio]?
            = some { pid := some "aid", ext := some .AudioExt, reserved := -1,
                     priority := [], autoloader := {} }
        ∧ strs[idx .StreamSubtitle]?
            = some { pid := some "sid", ext := some .SubtitleExt, reserved := -1,
                     priority := [], autoloader := {} }
        ∧ (∀ t ∈ streamTypes, ∃ sd, strs[idx t]? = some sd ∧ sd.pid ≠ none
            ∧ sd.pid = some (match t with
                | .StreamVideo => "vid" | .StreamAudio => "aid" | _ => "sid")
            ∧ sd.ext = some (match t with
                | .StreamVideo => .VideoExt | .StreamAudio => .AudioExt
                | _ => .SubtitleExt))
        ∧ (∀ t ∈ streamTypes, ∀ u ∈ streamTypes, ∀ sd se, t ≠ u →
            strs[idx t]? = some sd → strs[idx u]? = some se → sd.pid ≠ se.pid)
        ∧ (∀ sd ∈ strs, sd.reserved = -1 ∧ sd.priority = []) := by
  refine ⟨by decide, by decide, by decide, rfl, by decide, ?_⟩
  have hinit : streamsInit idx = some
      ((((List.replicate (idx .StreamUnknown) ({} : StreamData)).set (idx .StreamVideo)
        (StreamData.make "vid" .VideoExt)).set (idx .StreamAudio)
        (StreamData.make "aid" .AudioExt)).set (idx .StreamSubtitle)
        (StreamData.make "sid" .SubtitleExt)) := by
    simp [streamsInit, hv, ha, hs]
  refine ⟨_, hinit, ?_⟩
  have hV : ((((List.replicate (idx .StreamUnknown) ({} : StreamData)).set
      (idx .StreamVideo) (StreamData.make "vid" .VideoExt)).set (idx .StreamAudio)
      (StreamData.make "aid" .AudioExt)).set (idx .StreamSubtitle)
      (StreamData.make "sid" .SubtitleExt))[idx .StreamVideo]?
      = some { pid := some "vid", ext := some .VideoExt, reserved := -1,
               priority := [], autoloader := {} } := by
    rw [List.getElem?_set_ne (Ne.symm hvs), List.getElem?_set_ne (Ne.symm hva),
      List.getElem?_set_self (by simpa using hv)]
    rfl
  have hA : ((((List.replicate (idx .StreamUnknown) ({} : StreamData)).set
      (idx .StreamVideo) (StreamData.make "vid" .VideoExt)).set (idx .StreamAudio)
      (StreamData.make "aid" .AudioExt)).set (idx .StreamSubtitle)
      (StreamData.make "sid" .SubtitleExt))[idx .StreamAudio]?
      = some { pid := some "aid", ext := some .AudioExt, reserved := -1,
               priority := [], autoloader := {} } := by
    rw [List.getElem?_set_ne (Ne.symm has), List.getElem?_set_self (by simpa using ha)]
    rfl
  have hS : ((((List.replicate (idx .StreamUnknown) ({} : StreamData)).set
      (idx .StreamVideo) (StreamData.make "vid" .VideoExt)).set (idx .StreamAudio)
      (StreamData.make "aid" .AudioExt)).set (idx .StreamSubtitle)
      (StreamData.make "sid" .SubtitleExt))[idx .StreamSubtitle]?
      = some { pid := some "sid", ext := some .SubtitleExt, reserved := -1,
               priority := [], autoloader := {} } := by
    rw [List.getElem?_set_self (by simpa using hs)]
    rfl
  refine ⟨by simp, hV, hA, hS, ?_, ?_, ?_⟩
  · intro t ht
    simp only [streamTypes, List.mem_cons, List.mem_singleton, List.not_mem_nil,
      or_false] at ht
    rcases ht with rfl | rfl | rfl
    · exact ⟨_, hA, by simp, rfl, rfl⟩
    · exact ⟨_, hV, by simp, rfl, rfl⟩
    · exact ⟨_, hS, by simp, rfl, rfl⟩
  · intro t ht u hu sd se htu hsd hse
    simp only [streamTypes, List.mem_cons, List.mem_singleton, List.not_mem_nil,
      or_false] at ht hu
    rcases ht with rfl | rfl | rfl <;> rcases hu with rfl | rfl | rfl <;>
      first
        | exact absurd rfl htu
        | (simp only [hV, hA, hS, Option.some.injEq] at hsd hse
           subst hsd
           subst hse
           simp)
  · intro sd hsd
    have hmake : ∀ (pid : String) (ext : ExtType),
        (StreamData.make pid ext).reserved = -1 ∧ (StreamData.make pid ext).priority = [] :=
      fun _ _ => ⟨rfl, rfl⟩
    rcases List.mem_or_eq_of_mem_set hsd with h | rfl
    · rcases List.mem_or_eq_of_mem_set h with h | rfl
      · rcases List.mem_or_eq_of_mem_set h with h | rfl
        · rw [(List.mem_replicate.mp h).2]
          exact ⟨rfl, rfl⟩
        · exact hmake _ _
      · exact hmake _ _
    · exact hmake _ _

/-- Witness for C6 with video, audio, subtitle numbered 0, 1, 2 and
`StreamUnknown` = 3. -/
theorem streams_table_witness :
    streamsInit sampleIdx
        = some [{ pid := some "vid", ext := some .VideoExt, reserved := -1,
                  priority := [], autoloader := {} },
                { pid := some "aid", ext := some .AudioExt, reserved := -1,
                  priority := [], autoloader := {} },
                { pid := some "sid", ext := some .SubtitleExt, reserved := -1,
                  priority := [], autoloader := {} }]
      ∧ ∃ strs, streamsInit sampleIdx = some strs
        ∧ strs[sampleIdx .StreamAudio]?
            = some { pid := some "aid", ext := some .AudioExt, reserved := -1,
                     priority := [], autoloader := {} }
        ∧ ∀ sd ∈ strs, sd.reserved = -1 ∧ sd.priority = [] :=
  ⟨by decide,
   (streams_table sampleIdx (by decide) (by decide) (by decide) (by decide) (by decide)
      (by decide)).2.2.2.2.2.imp
      fun _ h => ⟨h.1, h.2.2.2.1, h.2.2.2.2.2.2.2⟩⟩

/-- C7: inclusive-subtitle consistency, for a record whose subtitle renderer is
attached.  After `setInclusiveSubtitles(s, loaded)` the renderer holds the
components `loaded`, the inclusive subtitle track list of `s` is the track list
the renderer reports for them, and nothing else of the record or of `s`
changes.  The one-argument form is the two-argument form applied to the
authoritative configuration `params`, so afterwards the inclusive list of
`params` is the reported track list.  `syncInclusiveSubtitles()` makes the
inclusive list of `params` the reported track list and leaves the renderer,
hence its components, unchanged. -/
theorem inclusiveSubtitles_consistent (toTrackList : SubtitleRenderer → StreamList)
    (d : Data) (s : MrlState) (loaded : List SubComp) (r : SubtitleRenderer)
    (h : d.sr = some r) :
    setInclusiveSubtitles toTrackList d s loaded
        = some ({ d with sr := some (r.setComponents loaded) },
                { s with sub_tracks_inclusive := toTrackList (r.setComponents loaded) })
      ∧ (r.setComponents loaded).components = loaded
      ∧ (∀ d1 s1, setInclusiveSubtitles toTrackList d s loaded = some (d1, s1) →
          ∃ r1, d1.sr = some r1 ∧ r1.components = loaded
            ∧ s1.sub_tracks_inclusive = toTrackList r1)
      ∧ setInclusiveSubtitlesParams toTrackList d loaded
          = (setInclusiveSubtitles toTrackList d d.params loaded).map
              (fun x => { x.1 with params := x.2 })
      ∧ (∃ d1 r1, setInclusiveSubtitlesParams toTrackList d loaded = some d1
          ∧ d1.sr = some r1 ∧ r1.components = loaded
          ∧ d1.params.sub_tracks_inclusive = toTrackList r1)
      ∧ (∃ d1, syncInclusiveSubtitles toTrackList d = some d1
          ∧ d1.params.sub_tracks_inclusive = toTrackList r
          ∧ d1.sr = some r
          ∧ d1 = { d with params :=
                    { d.params with sub_tracks_inclusive := toTrackList r } }) := by
  have h2 : ∀ s, setInclusiveSubtitles toTrackList d s loaded
      = some ({ d with sr := some (r.setComponents loaded) },
              { s with sub_tracks_inclusive := toTrackList (r.setComponents loaded) }) := by
    intro s
    simp only [setInclusiveSubtitles, h, MrlState.set_sub_tracks_inclusive]
  refine ⟨h2 s, rfl, ?_, ?_, ?_, ?_⟩
  · intro d1 s1 heq
    rw [h2 s] at heq
    simp only [Option.some.injEq, Prod.mk.injEq] at heq
    obtain ⟨rfl, rfl⟩ := heq
    exact ⟨_, rfl, rfl, rfl⟩
  · simp only [setInclusiveSubtitlesParams, h2 d.params, Option.map_some']
  · refine ⟨{ d with
        sr := some (r.setComponents loaded),
        params := { d.params with
          sub_tracks_inclusive := toTrackList (r.setComponents loaded) } },
      r.setComponents loaded, ?_, rfl, rfl, rfl⟩
    simp only [setInclusiveSubtitlesParams, h2 d.params]
  · refine ⟨{ d with params := { d.params with sub_tracks_inclusive := toTrackList r } },
      ?_, rfl, h, rfl⟩
    simp only [syncInclusiveSubtitles, h, MrlState.set_sub_tracks_inclusive]

/-- Witness for C7: a renderer holding no component is given two components. -/
theorem inclusiveSubtitles_consistent_witness :
    (setInclusiveSubtitlesParams sampleToTrackList { sampleData with sr := some {} }
        [⟨1, "movie.srt"⟩, ⟨2, "movie.en.ass"⟩]).map
        (fun d => (d.sr, d.params.sub_tracks_inclusive))
      = some (some ⟨[⟨1, "movie.srt"⟩, ⟨2, "movie.en.ass"⟩]⟩,
              [⟨1, "", "", "movie.srt", true⟩, ⟨2, "", "", "movie.en.ass", true⟩])
      ∧ ∃ d1, syncInclusiveSubtitles sampleToTrackList { sampleData with sr := some {} }
            = some d1
          ∧ d1.params.sub_tracks_inclusive = sampleToTrackList {} :=
  ⟨by decide,
   (inclusiveSubtitles_consistent sampleToTrackList { sampleData with sr := some {} }
      sampleParams [] {} rfl).2.2.2.2.2.imp
      fun _ h => ⟨h.1, h.2.1⟩⟩

/-- The function `setMousePos` on a record whose video renderer is attached,
as a case distinction on the guard and on the comparison of the mapped point
with the stored one. -/
theorem setMousePos_eq (toPoint : QPointF → QPoint) (d : Data) (pos : QPointF)
    (vr : VideoRenderer) (h : d.vr = some vr) :
    setMousePos toPoint d pos =
      if d.mpv.handle = none ∨ d.params.disc = false then some (false, d)
      else if toPoint (vr.mapToVideo pos) = d.mouse then some (false, d)
      else some (true,
        { d with
          mouse := toPoint (vr.mapToVideo pos),
          mpv := d.mpv.tellAsync "mouse"
            [.int (toPoint (vr.mapToVideo pos)).x, .int (toPoint (vr.mapToVideo pos)).y] }) := by
  cases d
  dsimp only at h
  subst h
  dsimp only [setMousePos, _Change]
  split_ifs <;> simp_all

/-- C8: for a record whose video renderer is attached, `setMousePos(pos)`
returns true if and only if the backend handle is present, the current media is
a disc, and the position mapped to video coordinates and rounded to an integer
point differs from the stored mouse point.  When it returns true the stored
mouse point becomes the mapped point, exactly one "mouse" command carrying the
x and y of that point is appended to the commands sent to the backend, and
nothing else changes; when it returns false the record is unchanged, so no
command is sent.  A second call with the same position returns false. -/
theorem setMousePos_spec (toPoint : QPointF → QPoint) (d : Data) (pos : QPointF)
    (vr : VideoRenderer) (h : d.vr = some vr) :
    ∃ b d1, setMousePos toPoint d pos = some (b, d1)
      ∧ (b = true ↔ d.mpv.handle ≠ none ∧ d.params.disc = true
            ∧ toPoint (vr.mapToVideo pos) ≠ d.mouse)
      ∧ (b = true →
          d1.mouse = toPoint (vr.mapToVideo pos)
            ∧ d1.mpv.async = d.mpv.async
                ++ [⟨"mouse", [.int (toPoint (vr.mapToVideo pos)).x,
                               .int (toPoint (vr.mapToVideo pos)).y]⟩]
            ∧ d1 = { d with mouse := toPoint (vr.mapToVideo pos),
                            mpv := { d.mpv with async := d1.mpv.async } })
      ∧ (b = false → d1 = d)
      ∧ setMousePos toPoint d1 pos = some (false, d1) := by
  rw [setMousePos_eq toPoint d pos vr h]
  by_cases hg : d.mpv.handle = none ∨ d.params.disc = false
  · refine ⟨false, d, if_pos hg, ?_, ?_, fun _ => rfl, ?_⟩
    · simp only [Bool.false_eq_true, false_iff, not_and]
      intro hh hd
      rcases hg with hg | hg
      · exact absurd hg hh
      · rw [hd] at hg
        exact absurd hg (by decide)
    · intro hb
      exact absurd hb (by decide)
    · rw [setMousePos_eq toPoint d pos vr h]
      exact if_pos hg
  · have hh : d.mpv.handle ≠ none := fun e => hg (Or.inl e)
    have hd : d.params.disc = true := by
      cases hdisc : d.params.disc
      · exact absurd (Or.inr hdisc) hg
      · rfl
    by_cases hm : toPoint (vr.mapToVideo pos) = d.mouse
    · refine ⟨false, d, ?_, ?_, ?_, fun _ => rfl, ?_⟩
      · rw [if_neg hg, if_pos hm]
      · simp only [Bool.false_eq_true, false_iff, not_and]
        intro _ _ hne
        exact hne hm
      · intro hb
        exact absurd hb (by decide)
      · rw [setMousePos_eq toPoint d pos vr h, if_neg hg, if_pos hm]
    · refine ⟨true,
        { d with
          mouse := toPoint (vr.mapToVideo pos),
          mpv := d.mpv.tellAsync "mouse"
            [.int (toPoint (vr.mapToVideo pos)).x, .int (toPoint (vr.mapToVideo pos)).y] },
        ?_, ?_, fun _ => ⟨rfl, rfl, rfl⟩, ?_, ?_⟩
      · rw [if_neg hg, if_neg hm]
      · simp only [true_iff]
        exact ⟨hh, hd, hm⟩
      · intro hb
        exact absurd hb (by decide)
      · have h2 := setMousePos_eq toPoint
          { d with
            mouse := toPoint (vr.mapToVideo pos),
            mpv := d.mpv.tellAsync "mouse"
              [.int (toPoint (vr.mapToVideo pos)).x, .int (toPoint (vr.mapToVideo pos)).y] }
          pos vr h
        rw [h2]
        simp [Mpv.tellAsync, hh, hd]

/-- Witness for C8: the mouse moves to (3, 4) on a disc, then stays there. -/
theorem setMousePos_spec_witness :
    ∃ d1, setMousePos sampleToPoint sampleDisc ⟨3, 4⟩ = some (true, d1)
      ∧ d1.mouse = ⟨3, 4⟩
      ∧ d1.mpv.async = [⟨"mouse", [.int 3, .int 4]⟩]
      ∧ setMousePos sampleToPoint d1 ⟨3, 4⟩ = some (false, d1) := by
  obtain ⟨b, d1, h1, hiff, ht, -, h2⟩ :=
    setMousePos_spec sampleToPoint sampleDisc ⟨3, 4⟩ ⟨fun p => p⟩ rfl
  have hb : b = true := hiff.mpr ⟨by decide, rfl, by decide⟩
  subst hb
  exact ⟨d1, h1, (ht rfl).1.trans (by decide), (ht rfl).2.1.trans (by decide), h2⟩

end Bomi
